import Mathlib

/-
Verification of the PRH company-search core (src/src/api/prhApi.ts):
the query formatter (formatSearchParams), the response normalizer
(transformResponse) and the fetch orchestrator (fetchCompanies).

The upstream JSON payload is loosely typed, so it is embedded as an
inductive value type JVal, together with the JavaScript semantics the
code relies on: truthiness, property access (returning undefined, here
Option.none, on non-objects and throwing on null), strict string
equality, string coercion and JSON serialization.  Numbers are modelled
as integers (every number a claim exercises is integral).  Object keys
are assumed distinct, as produced by the upstream API.
-/

inductive JVal where
  | str (s : String)
  | num (n : Int)
  | bool (b : Bool)
  | null
  | arr (xs : List JVal)
  | obj (fields : List (String × JVal))

/-- First binding of a key in an object field list. -/
def lookupField : List (String × JVal) → String → Option JVal
  | [], _ => none
  | (k, v) :: rest, key => if k = key then some v else lookupField rest key

/-- JavaScript truthiness of a value. -/
def truthy : JVal → Bool
  | JVal.str s => s.length != 0
  | JVal.num n => n != 0
  | JVal.bool b => b
  | JVal.null => false
  | JVal.arr _ => true
  | JVal.obj _ => true

/-- Truthiness of a possibly-undefined value (undefined is falsy). -/
def truthyO : Option JVal → Bool
  | none => false
  | some v => truthy v

/-- Property access that never throws: objects yield their field, every
other value (including null here, used only behind optional chaining or
after a null check) yields undefined. -/
def fieldOf : JVal → String → Option JVal
  | JVal.obj fs, k => lookupField fs k
  | _, _ => none

/-- Plain property access: throws a TypeError on null, otherwise like
fieldOf. -/
def getField (v : JVal) (k : String) : Except Unit (Option JVal) :=
  match v with
  | JVal.null => Except.error ()
  | _ => Except.ok (fieldOf v k)

/-- Is the value JVal.null (used for decidable side conditions). -/
def isNullV : JVal → Bool
  | JVal.null => true
  | _ => false

mutual
/-- JavaScript String(v) coercion. -/
def jsString : JVal → String
  | JVal.str s => s
  | JVal.num n => toString n
  | JVal.bool b => if b then "true" else "false"
  | JVal.null => "null"
  | JVal.obj _ => "[object Object]"
  | JVal.arr xs => jsStringArr xs

/-- Array toString: elements joined by commas, null rendered empty. -/
def jsStringArr : List JVal → String
  | [] => ""
  | [JVal.null] => ""
  | [x] => jsString x
  | JVal.null :: xs => "," ++ jsStringArr xs
  | x :: xs => jsString x ++ "," ++ jsStringArr xs
end

/-- Escape one character as in JSON string serialization (control
characters other than newline, return and tab are not exercised by any
claim and are left unescaped). -/
def escapeChar (c : Char) : String :=
  if c = '"' then "\\\""
  else if c = '\\' then "\\\\"
  else if c = '\n' then "\\n"
  else if c = '\r' then "\\r"
  else if c = '\t' then "\\t"
  else c.toString

/-- Escape a string body as in JSON string serialization. -/
def escapeJson (s : String) : String :=
  String.join (s.data.map escapeChar)

mutual
/-- JSON.stringify on the embedded values. -/
def stringify : JVal → String
  | JVal.str s => "\"" ++ escapeJson s ++ "\""
  | JVal.num n => toString n
  | JVal.bool b => if b then "true" else "false"
  | JVal.null => "null"
  | JVal.arr xs => "[" ++ stringifyArr xs ++ "]"
  | JVal.obj fs => "\x7b" ++ stringifyObj fs ++ "\x7d"

/-- Serialize array elements, comma separated. -/
def stringifyArr : List JVal → String
  | [] => ""
  | [x] => stringify x
  | x :: xs => stringify x ++ "," ++ stringifyArr xs

/-- Serialize object fields, comma separated. -/
def stringifyObj : List (String × JVal) → String
  | [] => ""
  | [(k, v)] => "\"" ++ escapeJson k ++ "\":" ++ stringify v
  | (k, v) :: fs => "\"" ++ escapeJson k ++ "\":" ++ stringify v ++ "," ++ stringifyObj fs
end

/-- Does one character list start with another. -/
def chStarts : List Char → List Char → Bool
  | [], _ => true
  | _ :: _, [] => false
  | p :: ps, c :: cs => p = c && chStarts ps cs

/-- Does the pattern occur inside the character list. -/
def chHasSub (pat : List Char) : List Char → Bool
  | [] => chStarts pat []
  | c :: cs => chStarts pat (c :: cs) || chHasSub pat cs

/-- Does the pattern occur as a substring (String.prototype.includes). -/
def containsSub (t pat : String) : Bool :=
  chHasSub pat.data t.data

/-- Math.ceil of a quotient of integers, for a positive divisor. -/
def jsCeilDiv (a : Int) (b : Int) : Int :=
  Int.ediv (a + b - 1) b

/-
Data model (src/src/types/index.ts).  The normalizer always fills every
Company field, so the optional output fields are plain strings here.
-/

structure CompanySearchParams where
  location : Option String := none
  businessId : Option String := none
  registrationDateStart : Option String := none
  registrationDateEnd : Option String := none
  page : Option Nat := none
  maxResults : Option Nat := none
deriving DecidableEq

structure Company where
  businessId : String
  name : String
  registrationDate : String
  endDate : String
  companyForm : String
  location : String
  detailsUri : String
deriving DecidableEq

structure CompanySearchResponse where
  results : List Company
  totalResults : Int
  currentPage : Nat
  totalPages : Int
deriving DecidableEq

def BASE_URL : String := "https://avoindata.prh.fi/opendata-ytj-api/v3"

/-
Query formatter (src/src/api/prhApi.ts, formatSearchParams).  A
parameter is emitted only when its value is truthy, i.e. a nonempty
string; the result keeps the insertion order of the source.
-/

/-- One optional query parameter, present iff the value is a truthy
string. -/
def optParamList (key : String) (v : Option String) : List (String × String) :=
  match v with
  | some s => if s ≠ "" then [(key, s)] else []
  | none => []

def formatSearchParams (params : CompanySearchParams) : List (String × String) :=
  optParamList "businessId" params.businessId ++
  optParamList "location" params.location ++
  optParamList "registrationDateStart" params.registrationDateStart ++
  optParamList "registrationDateEnd" params.registrationDateEnd ++
  [("totalResults", "true"), ("page", toString (params.page.getD 0 + 1))]

/-
Response normalizer (src/src/api/prhApi.ts, transformResponse).  Each
inline coercion of the source is a named definition here.  Except Unit
models a thrown TypeError.
-/

/-- Field value when it is a truthy plain string, as in the source
checks of the shape: object.key is truthy and typeof object.key is
string. -/
def truthyStrField (v : JVal) (k : String) : Option String :=
  match fieldOf v k with
  | some (JVal.str s) => if s = "" then none else some s
  | _ => none

/-- businessId resolution (source lines 187 to 216). -/
def resolveBusinessId (bid : Option JVal) (index : Nat) : String :=
  match bid with
  | some (JVal.str s) => s
  | some v =>
    if truthy v then
      match v with
      | JVal.obj _ =>
        match truthyStrField v "value" with
        | some s => s
        | none =>
          match truthyStrField v "id" with
          | some s => s
          | none => "company-" ++ toString index
      | JVal.arr _ => "company-" ++ toString index
      | _ => jsString v
    else "company-" ++ toString index
  | none => "company-" ++ toString index

/-- registrationDate resolution (source lines 218 to 249).  The
structured case probes a truthy string under value, then under
registrationDate, then serializes, suppressing the empty-object text
and any text containing the generic object placeholder. -/
def resolveRegDate (rd : Option JVal) : String :=
  match rd with
  | some (JVal.str s) => s
  | some v =>
    if truthy v then
      match truthyStrField v "value" with
      | some s => s
      | none =>
        match truthyStrField v "registrationDate" with
        | some s => s
        | none =>
          let t := stringify v
          if t = "\x7b\x7d" || containsSub t "[object Object]" then "" else t
    else ""
  | none => ""

/-- The length-positive test used by the source on companyForms (a
numeric length field is the only shape the upstream type declares). -/
def jsLengthPos (v : JVal) : Bool :=
  match v with
  | JVal.arr xs => decide (0 < xs.length)
  | JVal.str s => decide (0 < s.length)
  | JVal.obj fs =>
    match lookupField fs "length" with
    | some (JVal.num n) => decide (0 < n)
    | _ => false
  | _ => false

/-- Index 0 access, as JavaScript evaluates it on each value shape. -/
def jsIndex0 (v : JVal) : Option JVal :=
  match v with
  | JVal.arr xs => xs.head?
  | JVal.str s => s.data.head?.map (fun c => JVal.str c.toString)
  | JVal.obj fs => lookupField fs "0"
  | _ => none

/-- companyForm resolution (source lines 251 to 266). -/
def companyFormOf (cf : Option JVal) : String :=
  match cf with
  | none => ""
  | some v =>
    if truthy v && jsLengthPos v then
      match jsIndex0 v with
      | some (JVal.str s) => s
      | some f =>
        if truthy f then
          match fieldOf f "name" with
          | some (JVal.str n) => n
          | _ => stringify f
        else ""
      | none => ""
    else ""

/-- The predicate of the name search: language is strictly the string
FI and there is no truthy end date.  Plain access on a null element
throws. -/
def finnishPredE (el : JVal) : Except Unit Bool :=
  match el with
  | JVal.null => Except.error ()
  | _ =>
    Except.ok
      ((match fieldOf el "language" with
        | some (JVal.str s) => s = "FI"
        | _ => false) && !truthyO (fieldOf el "endDate"))

/-- The predicate of the address search: no truthy end date. -/
def addrPredE (el : JVal) : Except Unit Bool :=
  match el with
  | JVal.null => Except.error ()
  | _ => Except.ok (!truthyO (fieldOf el "endDate"))

/-- Array.prototype.find with a predicate that can throw. -/
def findM (p : JVal → Except Unit Bool) : List JVal → Except Unit (Option JVal)
  | [] => Except.ok none
  | x :: xs => do
    if (← p x) then pure (some x) else findM p xs

/-- Optional-chained find: undefined and null short-circuit to
undefined, an array runs the search, and any other value throws,
find not being a function on it. -/
def jsFind (p : JVal → Except Unit Bool) (o : Option JVal) :
    Except Unit (Option JVal) :=
  match o with
  | none => Except.ok none
  | some JVal.null => Except.ok none
  | some (JVal.arr xs) => findM p xs
  | some _ => Except.error ()

/-- String(x or-else empty): coerce a truthy value, otherwise empty. -/
def jsStrOrEmpty (o : Option JVal) : String :=
  match o with
  | some v => if truthy v then jsString v else ""
  | none => ""

/-- Name resolution (source lines 171 to 180): the first Finnish,
still-valid name variant when its name field is truthy, else the name
field of the first variant coerced to a string, else empty. -/
def primaryNameOf (names : Option JVal) : Except Unit JVal :=
  match jsFind finnishPredE names with
  | Except.error e => Except.error e
  | Except.ok fin =>
    let fname : Option JVal :=
      match fin with
      | some el => fieldOf el "name"
      | none => none
    if truthyO fname then
      Except.ok (fname.getD JVal.null)
    else
      match names with
      | some (JVal.arr (x :: _)) => Except.ok (JVal.str (jsStrOrEmpty (fieldOf x "name")))
      | _ => Except.ok (JVal.str "")

/-- Location resolution (source lines 268 to 273): postal code and
first post-office city of the primary address, space separated and
trimmed. -/
def locationOf (primaryAddress : Option JVal) : String :=
  match primaryAddress with
  | none => ""
  | some addr =>
    let pc := fieldOf addr "postCode"
    let e0 :=
      match fieldOf addr "postOffices" with
      | some po => jsIndex0 po
      | none => none
    let city :=
      match e0 with
      | some JVal.null => none
      | some el => fieldOf el "city"
      | none => none
    (jsStrOrEmpty pc ++ " " ++ jsStrOrEmpty city).trim

/-- endDate resolution (source line 276): the field when truthy, else
empty; the upstream type declares it a string, and a truthy non-string
is rendered through the same coercion used elsewhere. -/
def endDateOf (ed : Option JVal) : String :=
  jsStrOrEmpty ed

/-- The safe default record returned when transforming one company
throws (source lines 287 to 299). -/
def errorCompany (index : Nat) : Company :=
  { businessId := "error-" ++ toString index
    name := "Error processing data"
    registrationDate := ""
    companyForm := ""
    location := ""
    endDate := ""
    detailsUri := "" }

/-- The body of the per-company transformation (source lines 170 to
286).  The first plain property access throws when the element is
null; the two find calls throw on non-array truthy values and on null
elements.  Everything else is total. -/
def transformCompanyCore (result : JVal) (index : Nat) : Except Unit Company :=
  match getField result "names" with
  | Except.error e => Except.error e
  | Except.ok names =>
    match primaryNameOf names with
    | Except.error e => Except.error e
    | Except.ok pn =>
      match getField result "addresses" with
      | Except.error e => Except.error e
      | Except.ok addresses =>
        match jsFind addrPredE addresses with
        | Except.error e => Except.error e
        | Except.ok pa =>
          let bid := resolveBusinessId (fieldOf result "businessId") index
          Except.ok
            { businessId := bid
              name := jsString pn
              registrationDate := resolveRegDate (fieldOf result "registrationDate")
              companyForm := companyFormOf (fieldOf result "companyForms")
              location := locationOf pa
              endDate := endDateOf (fieldOf result "endDate")
              detailsUri := BASE_URL ++ "/companies/" ++ bid }

/-- Per-company transformation with its catch-all boundary. -/
def transformCompany (result : JVal) (index : Nat) : Company :=
  match transformCompanyCore result index with
  | Except.ok c => c
  | Except.error _ => errorCompany index

/-- Array.prototype.map with the element index, as the source maps the
companies array. -/
def mapWithIndex (f : JVal → Nat → Company) : Nat → List JVal → List Company
  | _, [] => []
  | i, x :: xs => f x i :: mapWithIndex f (i + 1) xs

/-- Total count: the upstream totalResults field when truthy, else the
number of records produced.  The upstream type declares the field a
number, so only numeric values are interpreted; a number is truthy iff
it is nonzero. -/
def totalOrLen (tr : Option JVal) (len : Nat) : Int :=
  match tr with
  | some (JVal.num n) => if n = 0 then (len : Int) else n
  | _ => (len : Int)

/-- transformResponse (source lines 153 to 309).  A falsy payload or a
falsy companies field yields the empty page; a truthy non-array
companies field throws (map is not a function on it); an array is
mapped per record. -/
def transformResponse (data : JVal) (page : Nat) (maxResults : Nat) :
    Except Unit CompanySearchResponse :=
  if !truthy data || !truthyO (fieldOf data "companies") then
    Except.ok { results := [], totalResults := 0, currentPage := page, totalPages := 0 }
  else
    match fieldOf data "companies" with
    | some (JVal.arr cs) =>
      let comps := mapWithIndex transformCompany 0 cs
      let total := totalOrLen (fieldOf data "totalResults") comps.length
      Except.ok
        { results := comps
          totalResults := total
          currentPage := page
          totalPages := jsCeilDiv total (maxResults : Int) }
    | _ => Except.error ()

/-
Fetch orchestrator (src/src/api/prhApi.ts, fetchCompanies).  The
network interaction is abstracted as an outcome: a network failure, or
a response with a status code and a body that either parsed to a JSON
value or failed to parse.
-/

inductive FetchOutcome where
  | networkError
  | response (status : Nat) (body : Option JVal)

/-- response.ok of the Fetch API: status in the range 200 to 299. -/
def statusOk (status : Nat) : Bool :=
  decide (200 ≤ status) && decide (status ≤ 299)

/-- The empty ResultPage the catch block of fetchCompanies builds. -/
def emptyResponse (page : Nat) : CompanySearchResponse :=
  { results := [], totalResults := 0, currentPage := page, totalPages := 0 }

/-- fetchCompanies (source lines 312 to 345): format the parameters,
issue the request, check response.ok, parse, normalize; every throw on
that path is caught and converted to the empty page carrying the
requested zero-based page index. -/
def fetchCompanies (params : CompanySearchParams) (outcome : FetchOutcome) :
    CompanySearchResponse :=
  let page := params.page.getD 0
  match outcome with
  | FetchOutcome.networkError => emptyResponse page
  | FetchOutcome.response status body =>
    if !statusOk status then emptyResponse page
    else
      match body with
      | none => emptyResponse page
      | some data =>
        match transformResponse data page 100 with
        | Except.ok r => r
        | Except.error _ => emptyResponse page

/-
Helper predicates and lemmas shared by the claim theorems.
-/

/-- Does the object field list hold a plain string under the key. -/
def strFieldB (fs : List (String × JVal)) (k : String) : Bool :=
  match lookupField fs k with
  | some (JVal.str _) => true
  | _ => false

/-- The pure form of the name-search predicate, total on non-null
elements. -/
def finnishPredB (el : JVal) : Bool :=
  (match fieldOf el "language" with
   | some (JVal.str s) => s = "FI"
   | _ => false) && !truthyO (fieldOf el "endDate")

lemma truthyStrField_none_of (fs : List (String × JVal)) (k : String)
    (h : strFieldB fs k = false) : truthyStrField (JVal.obj fs) k = none := by
  unfold strFieldB at h
  cases hv : lookupField fs k with
  | none => simp [truthyStrField, fieldOf, hv]
  | some v => cases v <;> simp_all [truthyStrField, fieldOf, hv]

lemma finnishPredE_ok (el : JVal) (h : isNullV el = false) :
    finnishPredE el = Except.ok (finnishPredB el) := by
  cases el with
  | null => simp [isNullV] at h
  | str s => rfl
  | num n => rfl
  | bool b => rfl
  | arr xs => rfl
  | obj fs => rfl

lemma findM_finnish (xs : List JVal)
    (h : xs.all (fun e => !isNullV e) = true) :
    findM finnishPredE xs = Except.ok (xs.find? finnishPredB) := by
  induction xs with
  | nil => rfl
  | cons x tl ih =>
    rw [List.all_cons, Bool.and_eq_true] at h
    have hx : isNullV x = false := by
      cases hxx : isNullV x with
      | false => rfl
      | true => rw [hxx] at h; simp at h
    cases hp : finnishPredB x with
    | true =>
      rw [List.find?_cons_of_pos _ hp]
      unfold findM
      rw [finnishPredE_ok x hx, hp]
      rfl
    | false =>
      rw [List.find?_cons_of_neg _ (by rw [hp]; exact Bool.false_ne_true)]
      unfold findM
      rw [finnishPredE_ok x hx, hp]
      exact ih h.2

lemma mapWithIndex_length (f : JVal → Nat → Company) :
    ∀ (s : Nat) (cs : List JVal), (mapWithIndex f s cs).length = cs.length := by
  intro s cs
  induction cs generalizing s with
  | nil => rfl
  | cons x tl ih => simp [mapWithIndex, ih]

lemma mapWithIndex_get (f : JVal → Nat → Company) :
    ∀ (s i : Nat) (cs : List JVal),
      (mapWithIndex f s cs).get? i = (cs.get? i).map (fun c => f c (s + i)) := by
  intro s i cs
  induction cs generalizing s i with
  | nil => simp [mapWithIndex]
  | cons x tl ih =>
    cases i with
    | zero => simp [mapWithIndex]
    | succ j =>
      simp only [mapWithIndex, List.get?]
      rw [ih (s + 1) j]
      have : s + 1 + j = s + (j + 1) := by omega
      rw [this]

lemma transformResponse_companies (fs : List (String × JVal)) (cs : List JVal)
    (page maxR : Nat) (h : lookupField fs "companies" = some (JVal.arr cs)) :
    transformResponse (JVal.obj fs) page maxR =
      Except.ok
        { results := mapWithIndex transformCompany 0 cs
          totalResults := totalOrLen (lookupField fs "totalResults") cs.length
          currentPage := page
          totalPages :=
            jsCeilDiv (totalOrLen (lookupField fs "totalResults") cs.length) maxR } := by
  unfold transformResponse
  simp only [fieldOf, h, truthy, truthyO, Bool.not_true, Bool.or_false]
  rw [mapWithIndex_length]
  rfl

lemma mem_optParamList (key : String) (o : Option String) (k v : String) :
    (k, v) ∈ optParamList key o ↔ k = key ∧ o = some v ∧ v ≠ "" := by
  cases o with
  | none => simp [optParamList]
  | some s =>
    by_cases hs : s = ""
    · subst hs
      have he : optParamList key (some "") = [] := by simp [optParamList]
      rw [he]
      constructor
      · intro hm
        exact absurd hm (List.not_mem_nil _)
      · rintro ⟨_, ho, hv⟩
        exact absurd (Option.some.inj ho).symm hv
    · simp only [optParamList, if_pos hs]
      constructor
      · intro hm
        rcases List.mem_singleton.mp hm with h
        have hk : k = key := congrArg Prod.fst h
        have hv : v = s := congrArg Prod.snd h
        exact ⟨hk, by rw [hv], by rw [hv]; exact hs⟩
      · rintro ⟨hk, ho, hv⟩
        have : s = v := Option.some.inj ho
        subst this
        subst hk
        exact List.mem_singleton.mpr rfl

/-
Claim theorems.
-/

/-- C6: for every SearchCriteria, formatSearchParams outputs exactly
the optional parameters that are set (a set optional parameter being a
truthy, i.e. nonempty, string), plus the two always-present parameters
totalResults mapped to the string true and page mapped to the decimal
rendering of the zero-indexed input page plus one; for criteria with
only page set the output holds nothing but those two parameters. -/
theorem formatSearchParams_exact_params (params : CompanySearchParams) (p : Nat) :
    (∀ k v, (k, v) ∈ formatSearchParams params ↔
      ((k = "businessId" ∧ params.businessId = some v ∧ v ≠ "") ∨
       (k = "location" ∧ params.location = some v ∧ v ≠ "") ∨
       (k = "registrationDateStart" ∧ params.registrationDateStart = some v ∧ v ≠ "") ∨
       (k = "registrationDateEnd" ∧ params.registrationDateEnd = some v ∧ v ≠ "") ∨
       (k = "totalResults" ∧ v = "true") ∨
       (k = "page" ∧ v = toString (params.page.getD 0 + 1)))) ∧
    formatSearchParams { page := some p } =
      [("totalResults", "true"), ("page", toString (p + 1))] := by
  constructor
  · intro k v
    simp only [formatSearchParams, List.mem_append, mem_optParamList,
      List.mem_cons, List.mem_singleton, Prod.mk.injEq, List.not_mem_nil, or_false]
    tauto
  · simp [formatSearchParams, optParamList]

/-- C10: a SearchCriteria whose page field is absent formats exactly
like one with an explicit page zero, and its page parameter renders as
the string 1. -/
theorem formatSearchParams_page_default (params : CompanySearchParams)
    (h : params.page = none) :
    formatSearchParams params = formatSearchParams { params with page := some 0 } ∧
    ("page", "1") ∈ formatSearchParams params := by
  constructor
  · simp [formatSearchParams, h]
  · simp only [formatSearchParams, h, List.mem_append]
    right
    simp only [List.mem_cons, List.mem_singleton]
    exact Or.inr (Or.inl rfl)

/-- Witness for C10 at the all-defaults criteria. -/
theorem formatSearchParams_page_default_witness :
    formatSearchParams {} = formatSearchParams { page := some 0 } ∧
    ("page", "1") ∈ formatSearchParams {} :=
  formatSearchParams_page_default {} rfl

/-- C3: a payload whose top level lacks the companies key, and the
absent (null) payload itself, both normalize to the empty ResultPage
with no results, zero total and zero pages, rather than failing. -/
theorem transformResponse_missing_companies (fs : List (String × JVal))
    (page maxR : Nat) (h : lookupField fs "companies" = none) :
    transformResponse (JVal.obj fs) page maxR =
      Except.ok { results := [], totalResults := 0, currentPage := page, totalPages := 0 } ∧
    transformResponse JVal.null page maxR =
      Except.ok { results := [], totalResults := 0, currentPage := page, totalPages := 0 } := by
  constructor
  · unfold transformResponse
    simp [fieldOf, h, truthyO]
  · rfl

/-- Witness for C3 at a payload carrying only a count. -/
theorem transformResponse_missing_companies_witness :
    transformResponse (JVal.obj [("totalResults", JVal.num 5)]) 2 100 =
      Except.ok { results := [], totalResults := 0, currentPage := 2, totalPages := 0 } ∧
    transformResponse JVal.null 2 100 =
      Except.ok { results := [], totalResults := 0, currentPage := 2, totalPages := 0 } :=
  transformResponse_missing_companies [("totalResults", JVal.num 5)] 2 100 rfl

/-- C2: identifier resolution.  A plain-string businessId is used
verbatim; on a structured value a value key holding a plain string is
probed first and an id key second (a key is consulted only when its
value is a truthy, hence nonempty, plain string); when neither key
holds a plain string, or the field is absent, the identifier is the
placeholder embedding the zero-based batch position; and the three
spec examples resolve as stated. -/
theorem resolveBusinessId_policy (i : Nat) :
    (∀ s, resolveBusinessId (some (JVal.str s)) i = s) ∧
    (∀ fs v, lookupField fs "value" = some (JVal.str v) → v ≠ "" →
      resolveBusinessId (some (JVal.obj fs)) i = v) ∧
    (∀ fs w, truthyStrField (JVal.obj fs) "value" = none →
      lookupField fs "id" = some (JVal.str w) → w ≠ "" →
      resolveBusinessId (some (JVal.obj fs)) i = w) ∧
    (∀ fs, strFieldB fs "value" = false → strFieldB fs "id" = false →
      resolveBusinessId (some (JVal.obj fs)) i = "company-" ++ toString i) ∧
    (resolveBusinessId none i = "company-" ++ toString i) ∧
    (resolveBusinessId (some (JVal.obj [("value", JVal.str "1234567-8")])) i = "1234567-8") ∧
    (resolveBusinessId (some (JVal.obj [("id", JVal.str "X")])) i = "X") ∧
    (resolveBusinessId (some (JVal.obj [])) i = "company-" ++ toString i) := by
  refine ⟨fun s => rfl, ?_, ?_, ?_, rfl, rfl, rfl, rfl⟩
  · intro fs v hv hne
    simp [resolveBusinessId, truthy, truthyStrField, fieldOf, hv, hne]
  · intro fs w hval hid hne
    have hid2 : truthyStrField (JVal.obj fs) "id" = some w := by
      simp [truthyStrField, fieldOf, hid, hne]
    simp [resolveBusinessId, truthy, hval, hid2]
  · intro fs h1 h2
    have t1 := truthyStrField_none_of fs "value" h1
    have t2 := truthyStrField_none_of fs "id" h2
    simp [resolveBusinessId, truthy, t1, t2]

/-- Witness for C2 applying the value-probe clause at a concrete
structured identifier. -/
theorem resolveBusinessId_policy_witness :
    resolveBusinessId (some (JVal.obj [("value", JVal.str "7654321-0")])) 3 = "7654321-0" :=
  (resolveBusinessId_policy 3).2.1 [("value", JVal.str "7654321-0")] "7654321-0" rfl
    (by decide)

/-- C7, counterexample: the claim says a plain-string value key is
used; with a value key holding the empty (hence falsy) string the code
falls through to serialization and yields the JSON text of the object,
not the empty string the claim requires. -/
theorem resolveRegDate_empty_value_cex :
    resolveRegDate (some (JVal.obj [("value", JVal.str "")])) = "\x7b\"value\":\"\"\x7d" ∧
    ("\x7b\"value\":\"\"\x7d" : String) ≠ "" :=
  ⟨rfl, by decide⟩

/-- C7, amended: a plain-string registrationDate is used verbatim; on
a structured value a truthy (nonempty) plain string under value is
probed first, then a truthy plain string under registrationDate; as a
last resort the structured value is serialized to JSON text, collapsed
to the empty string when that text is the empty-object marker or
contains the generic object placeholder; an absent field yields the
empty string. -/
theorem resolveRegDate_policy_amended :
    (∀ s, resolveRegDate (some (JVal.str s)) = s) ∧
    (∀ fs v, lookupField fs "value" = some (JVal.str v) → v ≠ "" →
      resolveRegDate (some (JVal.obj fs)) = v) ∧
    (∀ fs w, truthyStrField (JVal.obj fs) "value" = none →
      lookupField fs "registrationDate" = some (JVal.str w) → w ≠ "" →
      resolveRegDate (some (JVal.obj fs)) = w) ∧
    (∀ fs, truthyStrField (JVal.obj fs) "value" = none →
      truthyStrField (JVal.obj fs) "registrationDate" = none →
      resolveRegDate (some (JVal.obj fs)) =
        (if stringify (JVal.obj fs) = "\x7b\x7d" ||
            containsSub (stringify (JVal.obj fs)) "[object Object]"
         then "" else stringify (JVal.obj fs))) ∧
    (resolveRegDate none = "") := by
  refine ⟨fun s => rfl, ?_, ?_, ?_, rfl⟩
  · intro fs v hv hne
    have hv2 : truthyStrField (JVal.obj fs) "value" = some v := by
      simp [truthyStrField, fieldOf, hv, hne]
    simp [resolveRegDate, truthy, hv2]
  · intro fs w hval hrd hne
    have hrd2 : truthyStrField (JVal.obj fs) "registrationDate" = some w := by
      simp [truthyStrField, fieldOf, hrd, hne]
    simp [resolveRegDate, truthy, hval, hrd2]
  · intro fs h1 h2
    simp [resolveRegDate, truthy, h1, h2]

/-- Witness for C7 applying the value-probe clause of the amended
claim at a concrete structured date. -/
theorem resolveRegDate_policy_amended_witness :
    resolveRegDate (some (JVal.obj [("value", JVal.str "2019-05-05")])) = "2019-05-05" :=
  resolveRegDate_policy_amended.2.1 [("value", JVal.str "2019-05-05")] "2019-05-05" rfl
    (by decide)

/-- C5, counterexample: the claim says the reported total falls back
to the record count only when upstream omits totalResults; with
totalResults present and zero and one company in the batch the code
reports one, not the upstream zero the claim requires. -/
theorem totalResults_zero_cex :
    (transformResponse
        (JVal.obj [("totalResults", JVal.num 0), ("companies", JVal.arr [JVal.obj []])])
        0 100).map CompanySearchResponse.totalResults = Except.ok 1 ∧
    (1 : Int) ≠ 0 :=
  ⟨rfl, by decide⟩

/-- C5, amended: the reported total equals the upstream totalResults
field when that field is a truthy (nonzero) number, and falls back to
the number of records actually produced when the field is absent or
zero; the reported totalPages is the ceiling of the reported total
divided by the page size; with upstream totalResults 250 and page size
100 the page count is 3. -/
theorem totalResults_fallback_amended (fs : List (String × JVal)) (cs : List JVal)
    (page maxR : Nat) (n : Int)
    (hc : lookupField fs "companies" = some (JVal.arr cs)) :
    (lookupField fs "totalResults" = some (JVal.num n) → n ≠ 0 →
      (transformResponse (JVal.obj fs) page maxR).map
          (fun r => (r.totalResults, r.totalPages)) =
        Except.ok (n, jsCeilDiv n maxR)) ∧
    (lookupField fs "totalResults" = none →
      (transformResponse (JVal.obj fs) page maxR).map
          (fun r => (r.totalResults, r.totalPages)) =
        Except.ok ((cs.length : Int), jsCeilDiv (cs.length : Int) maxR)) ∧
    (lookupField fs "totalResults" = some (JVal.num 0) →
      (transformResponse (JVal.obj fs) page maxR).map
          (fun r => (r.totalResults, r.totalPages)) =
        Except.ok ((cs.length : Int), jsCeilDiv (cs.length : Int) maxR)) ∧
    (transformResponse
        (JVal.obj [("totalResults", JVal.num 250), ("companies", JVal.arr [])])
        0 100).map CompanySearchResponse.totalPages = Except.ok 3 := by
  refine ⟨?_, ?_, ?_, rfl⟩
  · intro ht hn
    rw [transformResponse_companies fs cs page maxR hc]
    simp [ht, totalOrLen, hn, Except.map]
  · intro ht
    rw [transformResponse_companies fs cs page maxR hc]
    simp [ht, totalOrLen, Except.map]
  · intro ht
    rw [transformResponse_companies fs cs page maxR hc]
    simp [ht, totalOrLen, Except.map]

/-- Witness for C5 applying the truthy-count clause of the amended
claim at a concrete payload. -/
theorem totalResults_fallback_amended_witness :
    (transformResponse
        (JVal.obj [("totalResults", JVal.num 250), ("companies", JVal.arr [])])
        4 100).map (fun r => (r.totalResults, r.totalPages)) =
      Except.ok ((250 : Int), jsCeilDiv 250 100) :=
  (totalResults_fallback_amended [("totalResults", JVal.num 250), ("companies", JVal.arr [])]
    [] 4 100 250 rfl).1 rfl (by decide)

/-- C8: name resolution prefers the first name variant tagged FI with
no end date, using its name when that name is a truthy value; with no
such variant it falls back to the name of the first variant coerced to
a string (empty when that name is falsy or absent); with no variants
at all, or the names field absent, the display name is empty. -/
theorem primaryName_policy :
    (∀ (xs : List JVal) (el v : JVal),
      xs.all (fun e => !isNullV e) = true →
      xs.find? finnishPredB = some el →
      fieldOf el "name" = some v →
      truthy v = true →
      (primaryNameOf (some (JVal.arr xs))).map jsString = Except.ok (jsString v)) ∧
    (∀ (x : JVal) (t : List JVal),
      (x :: t).all (fun e => !isNullV e) = true →
      (x :: t).find? finnishPredB = none →
      (primaryNameOf (some (JVal.arr (x :: t)))).map jsString =
        Except.ok (jsStrOrEmpty (fieldOf x "name"))) ∧
    ((primaryNameOf (some (JVal.arr []))).map jsString = Except.ok "") ∧
    ((primaryNameOf none).map jsString = Except.ok "") := by
  have harr : ∀ (xs : List JVal),
      jsFind finnishPredE (some (JVal.arr xs)) = findM finnishPredE xs :=
    fun xs => rfl
  refine ⟨?_, ?_, rfl, rfl⟩
  · intro xs el v hnn hfind hname htr
    unfold primaryNameOf
    rw [harr, findM_finnish xs hnn, hfind]
    simp [Except.bind, hname, truthyO, htr, Except.map]
  · intro x t hnn hfind
    unfold primaryNameOf
    rw [harr, findM_finnish _ hnn, hfind]
    simp [Except.bind, truthyO, Except.map, jsString]

/-- Witness for C8 applying the Finnish-preference clause at a batch
holding a Swedish and a Finnish variant. -/
theorem primaryName_policy_witness :
    (primaryNameOf (some (JVal.arr
        [JVal.obj [("language", JVal.str "SV"), ("name", JVal.str "Ab")],
         JVal.obj [("language", JVal.str "FI"), ("name", JVal.str "Oy")]]))).map jsString =
      Except.ok (jsString (JVal.str "Oy")) :=
  primaryName_policy.1
    [JVal.obj [("language", JVal.str "SV"), ("name", JVal.str "Ab")],
     JVal.obj [("language", JVal.str "FI"), ("name", JVal.str "Oy")]]
    (JVal.obj [("language", JVal.str "FI"), ("name", JVal.str "Oy")])
    (JVal.str "Oy") rfl rfl rfl rfl

/-- C9: the normalizer is deterministic and per-record: the record at
a position of the result page is a function of the upstream object at
that position and the position alone, so normalizing the same object
at the same position, in the same or another batch, yields identical
CompanyRecord values. -/
theorem transformResponse_deterministic (cs1 cs2 : List JVal) (i : Nat)
    (h : cs1.get? i = cs2.get? i) :
    (transformResponse (JVal.obj [("companies", JVal.arr cs1)]) 0 100).map
        (fun r => r.results.get? i) =
      (transformResponse (JVal.obj [("companies", JVal.arr cs2)]) 0 100).map
        (fun r => r.results.get? i) := by
  rw [transformResponse_companies [("companies", JVal.arr cs1)] cs1 0 100 rfl,
      transformResponse_companies [("companies", JVal.arr cs2)] cs2 0 100 rfl]
  simp only [Except.map, mapWithIndex_get, h]

/-- Witness for C9 at two batches sharing their first object. -/
theorem transformResponse_deterministic_witness :
    (transformResponse (JVal.obj [("companies", JVal.arr [JVal.obj []])]) 0 100).map
        (fun r => r.results.get? 0) =
      (transformResponse (JVal.obj [("companies", JVal.arr [JVal.obj [], JVal.null])]) 0 100).map
        (fun r => r.results.get? 0) :=
  transformResponse_deterministic [JVal.obj []] [JVal.obj [], JVal.null] 0 rfl

/-- C4, counterexample: with the throwing object removed, a later
sibling occupies an earlier position and its index-derived placeholder
identifier changes, so it is not normalized exactly as it would be in
the batch without the failing object: the empty company object after a
failing null yields company-1, while alone in a batch it yields
company-0. -/
theorem transformCompany_sibling_shift_cex :
    ((transformResponse (JVal.obj [("companies", JVal.arr [JVal.null, JVal.obj []])])
        0 100).toOption.bind (fun r => r.results.get? 1)).map Company.businessId =
      some "company-1" ∧
    ((transformResponse (JVal.obj [("companies", JVal.arr [JVal.obj []])])
        0 100).toOption.bind (fun r => r.results.get? 0)).map Company.businessId =
      some "company-0" ∧
    ("company-1" : String) ≠ "company-0" :=
  ⟨rfl, rfl, by decide⟩

/-- C4, amended: an object whose transformation throws yields the
error placeholder record at its position, identifier error-index and
display name marked as an error with every other field empty; and each
position of a normalized batch is a function of the object at that
position and its zero-based index alone, so siblings keep normalizing
exactly as the same object does at the same index in any batch (the
batch is never aborted; removing the failing object instead would
shift later siblings onto different indices and can change their
index-derived placeholders). -/
theorem transformCompany_error_isolation (c : JVal) (i : Nat)
    (h : transformCompanyCore c i = Except.error ()) :
    transformCompany c i =
      { businessId := "error-" ++ toString i
        name := "Error processing data"
        registrationDate := ""
        endDate := ""
        companyForm := ""
        location := ""
        detailsUri := "" } ∧
    (∀ (cs : List JVal) (page maxR j : Nat),
      (transformResponse (JVal.obj [("companies", JVal.arr cs)]) page maxR).map
          (fun r => r.results.get? j) =
        Except.ok ((cs.get? j).map (fun x => transformCompany x j))) := by
  constructor
  · unfold transformCompany
    rw [h]
    rfl
  · intro cs page maxR j
    rw [transformResponse_companies [("companies", JVal.arr cs)] cs page maxR rfl]
    simp only [Except.map, mapWithIndex_get, Nat.zero_add]

/-- Witness for C4 at the null object, whose first property access
throws. -/
theorem transformCompany_error_isolation_witness :
    transformCompany JVal.null 0 =
      { businessId := "error-" ++ toString 0
        name := "Error processing data"
        registrationDate := ""
        endDate := ""
        companyForm := ""
        location := ""
        detailsUri := "" } :=
  (transformCompany_error_isolation JVal.null 0 rfl).1

/-- C1: the fetch orchestrator never lets a failure escape: a network
failure, a response whose status is not in the success range, a body
that fails to parse as JSON, and even a parsed body on which the
normalizer itself throws, all yield the empty ResultPage whose
currentPage is the requested zero-based page index, zero when unset. -/
theorem fetchCompanies_fail_soft (params : CompanySearchParams)
    (outcome : FetchOutcome)
    (h : outcome = FetchOutcome.networkError ∨
      (∃ s b, outcome = FetchOutcome.response s b ∧ statusOk s = false) ∨
      (∃ s, outcome = FetchOutcome.response s none) ∨
      (∃ s d, outcome = FetchOutcome.response s (some d) ∧
        transformResponse d (params.page.getD 0) 100 = Except.error ())) :
    fetchCompanies params outcome =
      { results := []
        totalResults := 0
        currentPage := params.page.getD 0
        totalPages := 0 } := by
  rcases h with h | ⟨s, b, rfl, hs⟩ | ⟨s, rfl⟩ | ⟨s, d, rfl, hd⟩
  · rw [h]; rfl
  · simp [fetchCompanies, hs, emptyResponse]
  · cases hs : statusOk s <;> simp [fetchCompanies, hs, emptyResponse]
  · cases hs : statusOk s with
    | false => simp [fetchCompanies, hs, emptyResponse]
    | true => simp [fetchCompanies, hs, hd, emptyResponse]

/-- Witness for C1 at an HTTP 500 response carrying a parseable
body. -/
theorem fetchCompanies_fail_soft_witness :
    fetchCompanies { page := some 2 }
        (FetchOutcome.response 500 (some (JVal.obj []))) =
      { results := []
        totalResults := 0
        currentPage := 2
        totalPages := 0 } :=
  fetchCompanies_fail_soft { page := some 2 }
    (FetchOutcome.response 500 (some (JVal.obj [])))
    (Or.inr (Or.inl ⟨500, some (JVal.obj []), rfl, by decide⟩))
